import Mathlib

set_option maxHeartbeats 1000000
set_option maxRecDepth 8000

/-!
# Verification of the procedural DNA tube-mesh generator (`helix.py`)

This file gives a shallow embedding of the mesh-generation core of the
repository (`normalize`, `generate_small_cylinder`, `generate_dna` with its
inner `build_strand`) and proves / refutes the frozen claims about it.

Modelling conventions:

* numpy length-3 float arrays become `Vec3 α`; IEEE floating point is
  modelled by exact arithmetic in an arbitrary `LinearOrderedField α`
  (instantiated at `ℚ` for computation and at `ℝ` for analytic facts).
* the external library functions the source calls (`np.cos`, `np.sin`,
  `np.pi`, `np.sqrt` inside `np.linalg.norm`) are not part of the
  repository; they are supplied through an `Ops α` record.  Over `ℝ` they
  are instantiated with the exact mathematical functions
  (`Real.cos`, `Real.sin`, `Real.pi`, `Real.sqrt`); over `ℚ` with
  computable approximations (truncated Taylor polynomials, a fixed-point
  integer square root) so that concrete runs can be evaluated by `decide`.
  The structural facts proved below (array lengths, index layout) are
  independent of the values these functions return; concrete branch
  decisions (the `1e-8` degeneracy test) are robust to the approximation.
* Python `range` applied to a float raises `TypeError`, and `range` with a
  zero step raises `ValueError`; both are modelled by `PyNum` /
  `pyRangeLen` / the wrapper `generate_dna_py` for the claims about the
  parameter domain.
* field division by zero is `0` in Lean where Python would raise or numpy
  would produce `nan`: the `dtheta` division of `generate_dna` (line 102)
  divides by zero when `num_segments * num_turns = 0` (real Python:
  `ZeroDivisionError`, since `np.pi` is a plain float), and `normalize`
  divides by a zero norm on degenerate vectors (numpy: `nan`).  No claim
  below quantifies over the `num_segments * num_turns = 0` corner — the
  theorems about totality carry explicit `1 ≤` hypotheses — and the
  `normalize` corner is exactly what the frame claims discuss.
-/

namespace Helix

/-- A 3-component vector, modelling the numpy length-3 float arrays used
throughout `helix.py`. -/
structure Vec3 (α : Type) where
  x : α
  y : α
  z : α
  deriving DecidableEq

variable {α : Type} [LinearOrderedField α]

instance : Zero (Vec3 α) := ⟨⟨0, 0, 0⟩⟩

instance : Add (Vec3 α) := ⟨fun a b => ⟨a.x + b.x, a.y + b.y, a.z + b.z⟩⟩

instance : Sub (Vec3 α) := ⟨fun a b => ⟨a.x - b.x, a.y - b.y, a.z - b.z⟩⟩

instance : Neg (Vec3 α) := ⟨fun a => ⟨-a.x, -a.y, -a.z⟩⟩

instance : SMul α (Vec3 α) := ⟨fun c a => ⟨c * a.x, c * a.y, c * a.z⟩⟩

/-- `np.dot` on length-3 arrays. -/
def dotv (a b : Vec3 α) : α := a.x * b.x + a.y * b.y + a.z * b.z

/-- `np.cross` on length-3 arrays. -/
def crossv (a b : Vec3 α) : Vec3 α :=
  ⟨a.y * b.z - a.z * b.y, a.z * b.x - a.x * b.z, a.x * b.y - a.y * b.x⟩

/-- The external library functions used by `helix.py`: `np.cos`, `np.sin`,
the constant `np.pi`, and the square root inside `np.linalg.norm`. -/
structure Ops (α : Type) where
  cos : α → α
  sin : α → α
  pi : α
  sqrt : α → α

/-- `np.linalg.norm` on a length-3 array: the square root of the sum of
squares, with the square root taken from `Ops`. -/
def npnorm (ops : Ops α) (v : Vec3 α) : α := ops.sqrt (dotv v v)

/-- `helix.py` lines 33-34: `def normalize(v): return v / np.linalg.norm(v)`.
Componentwise division by the norm is scalar multiplication by its inverse. -/
def normalize (ops : Ops α) (v : Vec3 α) : Vec3 α := (1 / npnorm ops v) • v

/-- The up-reference selection shared by `helix.py` lines 46-48 and 139-142:
start from world Y and switch to world X when the (already normalized)
tangent is nearly parallel to Y (`np.abs(np.dot(T, up)) > 0.99`). -/
def frameUp (T : Vec3 α) : Vec3 α :=
  if abs (dotv T ⟨0, 1, 0⟩) > 99 / 100 then ⟨1, 0, 0⟩ else ⟨0, 1, 0⟩

/-- The frame computation shared by `helix.py` lines 44-51
(`d_hat = d / length; up ...; N = normalize(cross(d_hat, up));
B = normalize(cross(d_hat, N))`) and lines 136-145
(`T = normalize(T); up ...; N = normalize(np.cross(T, up));
B = normalize(np.cross(T, N))`): both normalize the raw direction vector
(dividing by `np.linalg.norm`), pick the up reference, and build N and B. -/
def buildFrame (ops : Ops α) (traw : Vec3 α) : Vec3 α × Vec3 α × Vec3 α :=
  let T := normalize ops traw
  let up := frameUp T
  let N := normalize ops (crossv T up)
  let B := normalize ops (crossv T N)
  (T, N, B)

/-- A `(vertices, normals, indices)` sub-mesh triple as returned by
`generate_small_cylinder` and `build_strand`. -/
structure Mesh (α : Type) where
  vertices : List (Vec3 α)
  normals : List (Vec3 α)
  indices : List ℕ
  deriving DecidableEq

/-- `helix.py` lines 36-90, `generate_small_cylinder(p1, p2, radius, sides)`.
The vertex loop (lines 61-70) appends, for each side `i`, the ring-0 vertex
`p1 + offset` and then immediately the ring-1 vertex `p2 + offset`
(interleaved layout); the normal loop (lines 72-76) does the same with the
normalized offset direction; the index loop (lines 78-86) uses
`ring0_start_index = 0` and `ring1_start_index = sides` (lines 57-58) and
strides by `2*i` within each ring. -/
def generate_small_cylinder (ops : Ops α) (p1 p2 : Vec3 α) (radius : α) (sides : ℕ) :
    Mesh α :=
  let d := p2 - p1
  let length := npnorm ops d
  if length < 1 / 10 ^ 8 then
    -- Degenerate case: points are the same (lines 40-42)
    { vertices := [], normals := [], indices := [] }
  else
    let frame := buildFrame ops d
    let N := frame.2.1
    let B := frame.2.2
    let vertices := (List.range sides).flatMap fun (i : ℕ) =>
      let theta := 2 * ops.pi * (i : α) / (sides : α)
      let offset := radius • (ops.cos theta • N + ops.sin theta • B)
      [p1 + offset, p2 + offset]
    let normals := (List.range sides).flatMap fun (i : ℕ) =>
      let theta := 2 * ops.pi * (i : α) / (sides : α)
      let offset_dir := normalize ops (ops.cos theta • N + ops.sin theta • B)
      [offset_dir, offset_dir]
    let ring0_start_index := 0
    let ring1_start_index := sides
    let indices := (List.range sides).flatMap fun i =>
      let i_next := (i + 1) % sides
      [ring0_start_index + 2 * i, ring0_start_index + 2 * i_next, ring1_start_index + 2 * i,
       ring0_start_index + 2 * i_next, ring1_start_index + 2 * i_next, ring1_start_index + 2 * i]
    { vertices := vertices, normals := normals, indices := indices }

/-- `helix.py` lines 110-119: the helix centerline sample
`[helix_radius*cos(theta), -i*vertical_spacing, helix_radius*sin(theta)]`
with `theta = i*dtheta + phase_offset`. -/
def strandCenter (ops : Ops α) (helix_radius vertical_spacing dtheta phase_offset : α)
    (i : ℕ) : Vec3 α :=
  ⟨helix_radius * ops.cos ((i : α) * dtheta + phase_offset),
   -(i : α) * vertical_spacing,
   helix_radius * ops.sin ((i : α) * dtheta + phase_offset)⟩

/-- `helix.py` lines 128-134: the raw (not yet normalized) tangent at sample
`i`: the difference to the next center, or from the previous one at the last
sample.  (At `i = total_segments = 0` the source reads
`center_positions[-1]`, Python's last element, which is again sample 0;
`ℕ` subtraction `0 - 1 = 0` gives the same sample.) -/
def strandTangent (ops : Ops α) (helix_radius vertical_spacing dtheta phase_offset : α)
    (total_segments i : ℕ) : Vec3 α :=
  if i < total_segments then
    strandCenter ops helix_radius vertical_spacing dtheta phase_offset (i + 1) -
      strandCenter ops helix_radius vertical_spacing dtheta phase_offset i
  else
    strandCenter ops helix_radius vertical_spacing dtheta phase_offset i -
      strandCenter ops helix_radius vertical_spacing dtheta phase_offset (i - 1)

/-- `helix.py` lines 124-157: the ring of `(vertex, normal)` pairs emitted at
sample `i` of a strand.  The frame is `buildFrame` of the raw tangent
(lines 126-145); each of the `ring_sides` ring points is
`c_i + strand_thickness*(cos(phi)*N + sin(phi)*B)` with outward normal
`normalize(offset)` (lines 147-154). -/
def strandRingPairs (ops : Ops α) (total_segments ring_sides : ℕ)
    (dtheta helix_radius strand_thickness vertical_spacing phase_offset : α) (i : ℕ) :
    List (Vec3 α × Vec3 α) :=
  let c_i := strandCenter ops helix_radius vertical_spacing dtheta phase_offset i
  let frame := buildFrame ops
    (strandTangent ops helix_radius vertical_spacing dtheta phase_offset total_segments i)
  let N := frame.2.1
  let B := frame.2.2
  (List.range ring_sides).map fun (j : ℕ) =>
    let phi := 2 * ops.pi * (j : α) / (ring_sides : α)
    let offset := strand_thickness • (ops.cos phi • N + ops.sin phi • B)
    (c_i + offset, normalize ops offset)

/-- `helix.py` lines 104-185, the inner `build_strand(phase_offset)` of
`generate_dna`.  Returns the strand sub-mesh and the centerline samples.
Rings (`strandRingPairs`) are flattened in sample order (lines 159-166);
the side-wall indices (lines 168-180) connect consecutive rings.
`center_positions[i]` is `strandCenter ... i` (lines 110-119). -/
def build_strand (ops : Ops α) (total_segments ring_sides : ℕ)
    (dtheta helix_radius strand_thickness vertical_spacing phase_offset : α) :
    Mesh α × List (Vec3 α) :=
  let center_positions := (List.range (total_segments + 1)).map
    (strandCenter ops helix_radius vertical_spacing dtheta phase_offset)
  let flat_vs := (List.range (total_segments + 1)).flatMap fun i =>
    (strandRingPairs ops total_segments ring_sides dtheta helix_radius strand_thickness
      vertical_spacing phase_offset i).map Prod.fst
  let flat_ns := (List.range (total_segments + 1)).flatMap fun i =>
    (strandRingPairs ops total_segments ring_sides dtheta helix_radius strand_thickness
      vertical_spacing phase_offset i).map Prod.snd
  let indices := (List.range total_segments).flatMap fun i =>
    let ring_start := i * ring_sides
    let next_ring := (i + 1) * ring_sides
    (List.range ring_sides).flatMap fun j =>
      let j_next := (j + 1) % ring_sides
      [ring_start + j, ring_start + j_next, next_ring + j,
       ring_start + j_next, next_ring + j_next, next_ring + j]
  ({ vertices := flat_vs, normals := flat_ns, indices := indices }, center_positions)

/-- Python `range(0, stop, step)` for a positive `step` (the rung loop of
`helix.py` line 200): the multiples of `step` below `stop`.  A zero `step`
raises `ValueError` in Python; that error is modelled in the wrapper
`generate_dna_py`, and every claim asserting that generation succeeds
carries a `1 ≤ rung_gap` hypothesis (or implies it), so the `step = 0`
fallback to the empty list here never stands in for a successful run. -/
def pyRangeStep (stop step : ℕ) : List ℕ :=
  if step = 0 then [] else (List.range ((stop + step - 1) / step)).map (· * step)

/-- `helix.py` lines 200-211: the running vertex-count offset of the rung
loop.  Each rung's indices are shifted by the current offset, which then
advances by that rung's vertex count. -/
def offsetRungs (start : ℕ) : List (Mesh α) → List (Mesh α)
  | [] => []
  | m :: ms =>
    { m with indices := m.indices.map (· + start) } :: offsetRungs (start + m.vertices.length) ms

/-- `helix.py` lines 92-228, `generate_dna`.  Builds the two strands with
phase offsets `0` and `np.pi` (lines 188-189), shifts strand 2's indices by
strand 1's vertex count (lines 191-193), generates a rung every `rung_gap`
samples with the hard-coded `sides=8` (lines 200-211), and concatenates all
vertex/normal/index arrays (lines 223-226).  The empty-rung-list branch of
lines 213-221 concatenates empty arrays and is therefore absorbed by list
append. -/
def generate_dna (ops : Ops α) (num_segments : ℕ) (helix_radius strand_thickness : α)
    (ring_sides num_turns : ℕ) (vertical_spacing : α) (rung_gap : ℕ) (rung_radius : α) :
    Mesh α :=
  let total_segments := num_segments * num_turns
  let dtheta := 2 * ops.pi * (num_turns : α) / ((total_segments : ℕ) : α)
  let s1 := build_strand ops total_segments ring_sides dtheta helix_radius strand_thickness
    vertical_spacing 0
  let s2 := build_strand ops total_segments ring_sides dtheta helix_radius strand_thickness
    vertical_spacing ops.pi
  let offset_strand2 := s1.1.vertices.length
  let strand2_idx := s2.1.indices.map (· + offset_strand2)
  let current_vertex_offset := offset_strand2 + s2.1.vertices.length
  let rung_meshes := (pyRangeStep (total_segments + 1) rung_gap).map fun i =>
    generate_small_cylinder ops (s1.2.getD i 0) (s2.2.getD i 0) rung_radius 8
  let rungs_shifted := offsetRungs current_vertex_offset rung_meshes
  { vertices := s1.1.vertices ++ s2.1.vertices ++ rung_meshes.flatMap (·.vertices)
    normals := s1.1.normals ++ s2.1.normals ++ rung_meshes.flatMap (·.normals)
    indices := s1.1.indices ++ strand2_idx ++ rungs_shifted.flatMap (·.indices) }

/-- A Python number: an `int` or a `float`.  Used to model the type error
`range` raises when `num_turns` is a float. -/
inductive PyNum where
  | int : ℤ → PyNum
  | float : ℚ → PyNum
  deriving DecidableEq

/-- Python multiplication: `int * int` is an `int`, any operand being a
`float` makes the result a `float`. -/
def pyMul : PyNum → PyNum → PyNum
  | .int a, .int b => .int (a * b)
  | .int a, .float b => .float (a * b)
  | .float a, .int b => .float (a * b)
  | .float a, .float b => .float (a * b)

/-- Python addition, with the same int/float promotion as `pyMul`. -/
def pyAdd : PyNum → PyNum → PyNum
  | .int a, .int b => .int (a + b)
  | .int a, .float b => .float (a + b)
  | .float a, .int b => .float (a + b)
  | .float a, .float b => .float (a + b)

/-- Python `len(range(n))`: defined for an `int` argument (negative values
give an empty range); a `float` argument raises
`TypeError: float object cannot be interpreted as an integer`. -/
def pyRangeLen : PyNum → Except String ℕ
  | .int k => .ok k.toNat
  | .float _ => .error "TypeError: float object cannot be interpreted as an integer"

/-- `generate_dna` as invoked with a `num_turns` of either Python type.
The first `range(total_segments + 1)` (line 110, inside `build_strand`,
reached via line 188) is the first point at which a float `num_turns`
(which makes `total_segments = num_segments * num_turns` a float) raises
`TypeError`; only after both strands are built does the rung loop's
`range(0, total_segments + 1, rung_gap)` (line 200) raise `ValueError` for
a zero `rung_gap`.  For an `int` turn count and a positive `rung_gap` the
generation runs to completion.  Not modelled (outside every claim's
domain, see the module comment): the `ZeroDivisionError` of line 102 when
`num_segments * num_turns = 0`, and negative `int` turn counts (clamped to
`0` by `Int.toNat`).  The `.float` branch after a successful `pyRangeLen`
is unreachable, since a float `num_turns` makes the range argument a
float. -/
def generate_dna_py (ops : Ops α) (num_segments : ℕ) (helix_radius strand_thickness : α)
    (ring_sides : ℕ) (num_turns : PyNum) (vertical_spacing : α) (rung_gap : ℕ)
    (rung_radius : α) : Except String (Mesh α) :=
  match pyRangeLen (pyAdd (pyMul (.int (num_segments : ℤ)) num_turns) (.int 1)) with
  | .error e => .error e
  | .ok _ =>
    if rung_gap = 0 then
      .error "ValueError: range() arg 3 must not be zero"
    else
      match num_turns with
      | .int t =>
        .ok (generate_dna ops num_segments helix_radius strand_thickness ring_sides t.toNat
          vertical_spacing rung_gap rung_radius)
      | .float _ => .error "unreachable"

/-- Floor of a nonnegative rational as a natural number. -/
def ratFloorN (q : ℚ) : ℕ := (q.num / (q.den : ℤ)).toNat

/-- Fuelled bisection for the integer square root (kernel-reducible, unlike
well-founded recursion). -/
def isqrtAux (n : ℕ) : ℕ → ℕ → ℕ → ℕ
  | 0, lo, _ => lo
  | fuel + 1, lo, hi =>
    let mid := (lo + hi + 1) / 2
    if mid * mid ≤ n then isqrtAux n fuel mid hi else isqrtAux n fuel lo (mid - 1)

/-- Integer square root by 96 bisection steps (exact for all inputs below
`2 ^ 96`, far beyond every concrete run in this file). -/
def isqrtN (n : ℕ) : ℕ := isqrtAux n 96 0 n

/-- Computable model of the library square root over `ℚ`: fixed-point
arithmetic with 8 fractional digits (`sqrtQ 0 = 0`, `sqrtQ 1 = 1`). -/
def sqrtQ (q : ℚ) : ℚ := (isqrtN (ratFloorN (q * 10 ^ 16)) : ℚ) / 10 ^ 8

/-- Computable model of `np.cos` over `ℚ`: truncated Taylor series. -/
def cosQ (x : ℚ) : ℚ := 1 - x ^ 2 / 2 + x ^ 4 / 24

/-- Computable model of `np.sin` over `ℚ`: truncated Taylor series. -/
def sinQ (x : ℚ) : ℚ := x - x ^ 3 / 6 + x ^ 5 / 120

/-- The computable `ℚ` instantiation of the library functions, used to run
the generator on concrete inputs inside `decide`.  The structural claims
proved below do not depend on the approximation quality; the degeneracy
branch decisions taken on concrete inputs agree with the float execution
(distances of order 1 against a `1e-8` epsilon). -/
def opsQ : Ops ℚ := { cos := cosQ, sin := sinQ, pi := 22 / 7, sqrt := sqrtQ }

/-- The exact `ℝ` instantiation of the library functions, used for the
analytic claims about frames and degeneracy. -/
noncomputable def opsR : Ops ℝ :=
  { cos := Real.cos, sin := Real.sin, pi := Real.pi, sqrt := Real.sqrt }

/-! ## Basic component lemmas -/

@[simp] theorem Vec3.zero_def : (0 : Vec3 α) = ⟨0, 0, 0⟩ := rfl

@[simp] theorem Vec3.add_def (a b : Vec3 α) : a + b = ⟨a.x + b.x, a.y + b.y, a.z + b.z⟩ := rfl

@[simp] theorem Vec3.sub_def (a b : Vec3 α) : a - b = ⟨a.x - b.x, a.y - b.y, a.z - b.z⟩ := rfl

@[simp] theorem Vec3.smul_def (c : α) (v : Vec3 α) : c • v = ⟨c * v.x, c * v.y, c * v.z⟩ := rfl

theorem Vec3.smul_zero (c : α) : c • (0 : Vec3 α) = 0 := by simp

theorem Vec3.sub_self (v : Vec3 α) : v - v = 0 := by simp

theorem crossv_zero_left (u : Vec3 α) : crossv 0 u = 0 := by simp [crossv]

theorem normalize_zero (ops : Ops α) : Helix.normalize ops (0 : Vec3 α) = 0 := by
  simp [Helix.normalize]

/-- The frame construction applied to a zero raw tangent yields the zero
triple: `normalize` divides by zero (Lean: gives `0`; numpy: `nan`) and the
cross products of the zero vector vanish. -/
theorem buildFrame_zero (ops : Ops α) : buildFrame ops (0 : Vec3 α) = (0, 0, 0) := by
  rw [buildFrame]
  rw [normalize_zero, crossv_zero_left, normalize_zero, crossv_zero_left, normalize_zero]

/-! ## Length lemmas -/

theorem length_flatMap_const {β γ : Type} (l : List β) (f : β → List γ) (c : ℕ)
    (h : ∀ b ∈ l, (f b).length = c) : (l.flatMap f).length = l.length * c := by
  induction l with
  | nil => simp
  | cons a l ih =>
    simp only [List.flatMap_cons, List.length_append, List.length_cons]
    rw [h a (by simp), ih (fun b hb => h b (by simp [hb]))]
    ring

theorem strandRingPairs_length (ops : Ops α) (total S : ℕ) (dθ r th h φ : α) (i : ℕ) :
    (strandRingPairs ops total S dθ r th h φ i).length = S := by
  rw [strandRingPairs]
  simp only [List.length_map, List.length_range]

theorem build_strand_vertices_length (ops : Ops α) (total S : ℕ) (dθ r th h φ : α) :
    (build_strand ops total S dθ r th h φ).1.vertices.length = (total + 1) * S := by
  show ((List.range (total + 1)).flatMap fun i =>
    (strandRingPairs ops total S dθ r th h φ i).map Prod.fst).length = (total + 1) * S
  exact length_flatMap_const _ _ S
    (fun b _ => by simp only [List.length_map, strandRingPairs_length]) |>.trans
    (by simp only [List.length_range])

theorem build_strand_normals_length (ops : Ops α) (total S : ℕ) (dθ r th h φ : α) :
    (build_strand ops total S dθ r th h φ).1.normals.length = (total + 1) * S := by
  show ((List.range (total + 1)).flatMap fun i =>
    (strandRingPairs ops total S dθ r th h φ i).map Prod.snd).length = (total + 1) * S
  exact length_flatMap_const _ _ S
    (fun b _ => by simp only [List.length_map, strandRingPairs_length]) |>.trans
    (by simp only [List.length_range])

theorem build_strand_indices_length (ops : Ops α) (total S : ℕ) (dθ r th h φ : α) :
    (build_strand ops total S dθ r th h φ).1.indices.length = total * S * 6 := by
  show ((List.range total).flatMap fun i =>
    (List.range S).flatMap fun j =>
      [i * S + j, i * S + (j + 1) % S, (i + 1) * S + j,
       i * S + (j + 1) % S, (i + 1) * S + (j + 1) % S, (i + 1) * S + j]).length = total * S * 6
  refine (length_flatMap_const _ _ (S * 6) (fun b _ => ?_)).trans
    (by simp only [List.length_range]; ring)
  exact length_flatMap_const _ _ 6
    (fun b _ => by simp only [List.length_cons, List.length_nil]) |>.trans
    (by simp only [List.length_range])

theorem build_strand_centers (ops : Ops α) (total S : ℕ) (dθ r th h φ : α) :
    (build_strand ops total S dθ r th h φ).2 =
      (List.range (total + 1)).map (strandCenter ops r h dθ φ) := rfl

/-! ## List access lemmas -/

theorem getD_map_range {β : Type} (f : ℕ → β) (n i : ℕ) (d : β) (hi : i < n) :
    ((List.range n).map f).getD i d = f i := by
  rw [List.getD_eq_getElem?_getD]
  simp [List.getElem?_map, List.getElem?_range hi]

theorem flatMap_pairs_getD {β : Type} (f g : ℕ → β) (d : β) :
    ∀ n i, i < n →
      ((List.range n).flatMap fun k => [f k, g k]).getD (2 * i) d = f i ∧
      ((List.range n).flatMap fun k => [f k, g k]).getD (2 * i + 1) d = g i := by
  intro n
  induction n with
  | zero => intro i hi; omega
  | succ m ih =>
    intro i hi
    have hlen : ((List.range m).flatMap fun k => [f k, g k]).length = 2 * m :=
      (length_flatMap_const (List.range m) (fun k => [f k, g k]) 2 (fun b _ => rfl)).trans
        (by simp only [List.length_range]; ring)
    rw [show m + 1 = m.succ from rfl, List.range_succ, List.flatMap_append]
    rcases Nat.lt_succ_iff_lt_or_eq.mp hi with hlt | rfl
    · constructor
      · rw [List.getD_append _ _ _ _ (by omega)]; exact (ih i hlt).1
      · rw [List.getD_append _ _ _ _ (by omega)]; exact (ih i hlt).2
    · constructor
      · rw [List.getD_append_right _ _ _ _ (by omega)]
        simp [hlen]
      · rw [List.getD_append_right _ _ _ _ (by omega)]
        simp [hlen]

theorem pyRangeStep_singleton (stop step : ℕ) (h1 : 0 < stop) (h2 : stop ≤ step) :
    pyRangeStep stop step = [0] := by
  have hstep : ¬ step = 0 := by omega
  rw [pyRangeStep, if_neg hstep]
  have hdiv : (stop + step - 1) / step = 1 := by
    apply Nat.div_eq_of_lt_le (by omega) (by omega)
  rw [hdiv]
  simp [List.range_succ]

/-! ## Cylinder lemmas -/

theorem generate_small_cylinder_degenerate (ops : Ops α) (p1 p2 : Vec3 α) (radius : α)
    (sides : ℕ) (hdeg : npnorm ops (p2 - p1) < 1 / 10 ^ 8) :
    generate_small_cylinder ops p1 p2 radius sides =
      { vertices := [], normals := [], indices := [] } := by
  simp only [generate_small_cylinder, if_pos hdeg]

theorem generate_small_cylinder_lengths (ops : Ops α) (p1 p2 : Vec3 α) (radius : α)
    (sides : ℕ) (hdeg : ¬ npnorm ops (p2 - p1) < 1 / 10 ^ 8) :
    (generate_small_cylinder ops p1 p2 radius sides).vertices.length = 2 * sides ∧
    (generate_small_cylinder ops p1 p2 radius sides).normals.length = 2 * sides ∧
    (generate_small_cylinder ops p1 p2 radius sides).indices.length = 6 * sides := by
  simp only [generate_small_cylinder, if_neg hdeg]
  refine ⟨(length_flatMap_const _ _ 2 ?_).trans ?_, (length_flatMap_const _ _ 2 ?_).trans ?_,
          (length_flatMap_const _ _ 6 ?_).trans ?_⟩
  · exact fun b _ => rfl
  · simp only [List.length_range]; ring
  · exact fun b _ => rfl
  · simp only [List.length_range]; ring
  · exact fun b _ => rfl
  · simp only [List.length_range]; ring

/-! ## Decomposition of `generate_dna` (definitional) -/

theorem generate_dna_vertices (ops : Ops α) (ns : ℕ) (r th : α) (rs nt : ℕ) (h : α)
    (gap : ℕ) (rr : α) :
    (generate_dna ops ns r th rs nt h gap rr).vertices =
      (build_strand ops (ns * nt) rs (2 * ops.pi * (nt : α) / ((ns * nt : ℕ) : α)) r th h
        0).1.vertices ++
      (build_strand ops (ns * nt) rs (2 * ops.pi * (nt : α) / ((ns * nt : ℕ) : α)) r th h
        ops.pi).1.vertices ++
      ((pyRangeStep (ns * nt + 1) gap).map fun i =>
        generate_small_cylinder ops
          ((build_strand ops (ns * nt) rs (2 * ops.pi * (nt : α) / ((ns * nt : ℕ) : α)) r th h
            0).2.getD i 0)
          ((build_strand ops (ns * nt) rs (2 * ops.pi * (nt : α) / ((ns * nt : ℕ) : α)) r th h
            ops.pi).2.getD i 0) rr 8).flatMap (·.vertices) := rfl

theorem generate_dna_normals (ops : Ops α) (ns : ℕ) (r th : α) (rs nt : ℕ) (h : α)
    (gap : ℕ) (rr : α) :
    (generate_dna ops ns r th rs nt h gap rr).normals =
      (build_strand ops (ns * nt) rs (2 * ops.pi * (nt : α) / ((ns * nt : ℕ) : α)) r th h
        0).1.normals ++
      (build_strand ops (ns * nt) rs (2 * ops.pi * (nt : α) / ((ns * nt : ℕ) : α)) r th h
        ops.pi).1.normals ++
      ((pyRangeStep (ns * nt + 1) gap).map fun i =>
        generate_small_cylinder ops
          ((build_strand ops (ns * nt) rs (2 * ops.pi * (nt : α) / ((ns * nt : ℕ) : α)) r th h
            0).2.getD i 0)
          ((build_strand ops (ns * nt) rs (2 * ops.pi * (nt : α) / ((ns * nt : ℕ) : α)) r th h
            ops.pi).2.getD i 0) rr 8).flatMap (·.normals) := rfl

theorem generate_dna_indices (ops : Ops α) (ns : ℕ) (r th : α) (rs nt : ℕ) (h : α)
    (gap : ℕ) (rr : α) :
    (generate_dna ops ns r th rs nt h gap rr).indices =
      (build_strand ops (ns * nt) rs (2 * ops.pi * (nt : α) / ((ns * nt : ℕ) : α)) r th h
        0).1.indices ++
      (build_strand ops (ns * nt) rs (2 * ops.pi * (nt : α) / ((ns * nt : ℕ) : α)) r th h
        ops.pi).1.indices.map
        (· + (build_strand ops (ns * nt) rs (2 * ops.pi * (nt : α) / ((ns * nt : ℕ) : α)) r th h
          0).1.vertices.length) ++
      (offsetRungs
        ((build_strand ops (ns * nt) rs (2 * ops.pi * (nt : α) / ((ns * nt : ℕ) : α)) r th h
          0).1.vertices.length +
         (build_strand ops (ns * nt) rs (2 * ops.pi * (nt : α) / ((ns * nt : ℕ) : α)) r th h
          ops.pi).1.vertices.length)
        ((pyRangeStep (ns * nt + 1) gap).map fun i =>
          generate_small_cylinder ops
            ((build_strand ops (ns * nt) rs (2 * ops.pi * (nt : α) / ((ns * nt : ℕ) : α)) r th h
              0).2.getD i 0)
            ((build_strand ops (ns * nt) rs (2 * ops.pi * (nt : α) / ((ns * nt : ℕ) : α)) r th h
              ops.pi).2.getD i 0) rr 8)).flatMap (·.indices) := rfl

/-! ## Real vector geometry (for the frame claims) -/

theorem dotv_self_nonneg (v : Vec3 ℝ) : 0 ≤ dotv v v := by
  simp only [dotv]
  nlinarith [mul_self_nonneg v.x, mul_self_nonneg v.y, mul_self_nonneg v.z]

theorem dotv_self_pos {v : Vec3 ℝ} (h : v ≠ 0) : 0 < dotv v v := by
  rcases lt_or_eq_of_le (dotv_self_nonneg v) with hlt | heq
  · exact hlt
  · exfalso
    apply h
    rcases v with ⟨x, y, z⟩
    simp only [dotv] at heq
    have hx : x = 0 := by nlinarith [mul_self_nonneg x, mul_self_nonneg y, mul_self_nonneg z]
    have hy : y = 0 := by nlinarith [mul_self_nonneg x, mul_self_nonneg y, mul_self_nonneg z]
    have hz : z = 0 := by nlinarith [mul_self_nonneg x, mul_self_nonneg y, mul_self_nonneg z]
    simp [hx, hy, hz]

theorem dotv_smul_right (c : α) (a b : Vec3 α) : dotv a (c • b) = c * dotv a b := by
  simp only [dotv, Vec3.smul_def]
  ring

theorem dotv_smul_smul (c : α) (a b : Vec3 α) : dotv (c • a) (c • b) = c ^ 2 * dotv a b := by
  simp only [dotv, Vec3.smul_def]
  ring

theorem dotv_crossv_left (a b : Vec3 α) : dotv a (crossv a b) = 0 := by
  simp only [dotv, crossv]
  ring

theorem dotv_crossv_right (a b : Vec3 α) : dotv b (crossv a b) = 0 := by
  simp only [dotv, crossv]
  ring

theorem dotv_crossv_self (a b : Vec3 α) :
    dotv (crossv a b) (crossv a b) = dotv a a * dotv b b - dotv a b ^ 2 := by
  simp only [dotv, crossv]
  ring

theorem crossv_crossv_cancel (a b : Vec3 α) :
    crossv a (crossv b a) = dotv a a • b - dotv a b • a := by
  simp only [dotv, crossv, Vec3.smul_def, Vec3.sub_def, Vec3.mk.injEq]
  exact ⟨by ring, by ring, by ring⟩

theorem npnormR (v : Vec3 ℝ) : npnorm opsR v = Real.sqrt (dotv v v) := rfl

theorem dotv_normalize_self {v : Vec3 ℝ} (h : v ≠ 0) :
    dotv (Helix.normalize opsR v) (Helix.normalize opsR v) = 1 := by
  have hpos := dotv_self_pos h
  have hsq : Real.sqrt (dotv v v) ^ 2 = dotv v v := Real.sq_sqrt hpos.le
  have hsne : Real.sqrt (dotv v v) ≠ 0 := (Real.sqrt_pos.mpr hpos).ne'
  rw [Helix.normalize, dotv_smul_smul, npnormR, div_pow, one_pow, hsq]
  field_simp

theorem npnorm_eq_one {v : Vec3 ℝ} (h : dotv v v = 1) : npnorm opsR v = 1 := by
  rw [npnormR, h, Real.sqrt_one]

theorem normalize_of_unit {v : Vec3 ℝ} (h : dotv v v = 1) : Helix.normalize opsR v = v := by
  rw [Helix.normalize, npnormR, h, Real.sqrt_one]
  rcases v with ⟨x, y, z⟩
  simp

theorem normalize_ne_zero {v : Vec3 ℝ} (h : v ≠ 0) : Helix.normalize opsR v ≠ 0 := by
  intro hz
  have := dotv_normalize_self h
  rw [hz] at this
  simp [dotv] at this

theorem crossv_frameUp_ne_zero {T : Vec3 ℝ} (hT : dotv T T = 1) :
    crossv T (frameUp T) ≠ 0 := by
  rcases T with ⟨x, y, z⟩
  simp only [dotv] at hT
  rw [frameUp]
  by_cases hc : abs (dotv (Vec3.mk x y z) ⟨0, 1, 0⟩) > (99 : ℝ) / 100
  · rw [if_pos hc]
    intro hzero
    simp only [crossv, Vec3.zero_def, Vec3.mk.injEq] at hzero
    obtain ⟨-, h2, h3⟩ := hzero
    have hy : y = 0 := by linarith [h3]
    simp only [dotv, hy] at hc
    rw [show x * 0 + 0 * 1 + z * 0 = 0 by ring] at hc
    simp at hc
    linarith
  · rw [if_neg hc]
    intro hzero
    simp only [crossv, Vec3.zero_def, Vec3.mk.injEq] at hzero
    obtain ⟨h1, -, h3⟩ := hzero
    have hz : z = 0 := by linarith [h1]
    have hx : x = 0 := by linarith [h3]
    push_neg at hc
    simp only [dotv] at hc
    rw [show x * 0 + y * 1 + z * 0 = y by ring] at hc
    rw [abs_le] at hc
    nlinarith [hT, hc.1, hc.2]

theorem dotv_comm (a b : Vec3 α) : dotv a b = dotv b a := by
  simp only [dotv]
  ring

theorem add_sub_add_cancel_vec (a b o : Vec3 α) : a + o - (b + o) = a - b := by
  simp only [Vec3.add_def, Vec3.sub_def, Vec3.mk.injEq]
  exact ⟨by ring, by ring, by ring⟩

theorem strandCenter_two_pi (r : ℝ) :
    strandCenter opsR r 0 (2 * Real.pi) 0 1 = strandCenter opsR r 0 (2 * Real.pi) 0 0 := by
  simp only [strandCenter, opsR, Vec3.mk.injEq]
  norm_num [Real.cos_two_pi, Real.sin_two_pi]

theorem strandTangent_zero_at_degenerate (r : ℝ) :
    strandTangent opsR r 0 (2 * Real.pi) 0 1 0 = 0 := by
  rw [strandTangent, if_pos (by norm_num : (0 : ℕ) < 1)]
  rw [show (0 : ℕ) + 1 = 1 from rfl, strandCenter_two_pi]
  exact Vec3.sub_self _

theorem npnorm_zero : npnorm opsR (0 : Vec3 ℝ) = 0 := by
  rw [npnormR]
  rw [show dotv (0 : Vec3 ℝ) 0 = 0 by simp [dotv, Vec3.zero_def]]
  exact Real.sqrt_zero

/-- When `rung_gap` exceeds the total segment count the rung loop visits only
sample 0: the combined mesh decomposes as the two strands plus a single rung.
(Shared workhorse for several claims.)  Original doc: with `rung_gap` larger than the total segment count, exactly
one rung is generated — at sample 0, where the two strands are `2r` apart —
and the combined arrays are the two strand sub-meshes concatenated followed by
that single rung, with strand 2's indices offset by strand 1's vertex count
and the rung's indices by the total strand vertex count. -/
theorem single_rung_decomposition (ops : Ops α) (ns : ℕ) (r th : α) (rs nt : ℕ) (hh : α) (gap : ℕ)
    (rr : α) (hgap : ns * nt < gap) :
    pyRangeStep (ns * nt + 1) gap = [0] ∧
    (generate_dna ops ns r th rs nt hh gap rr).vertices =
      (build_strand ops (ns * nt) rs (2 * ops.pi * (nt : α) / ((ns * nt : ℕ) : α)) r th hh
        0).1.vertices ++
      (build_strand ops (ns * nt) rs (2 * ops.pi * (nt : α) / ((ns * nt : ℕ) : α)) r th hh
        ops.pi).1.vertices ++
      (generate_small_cylinder ops
        (strandCenter ops r hh (2 * ops.pi * (nt : α) / ((ns * nt : ℕ) : α)) 0 0)
        (strandCenter ops r hh (2 * ops.pi * (nt : α) / ((ns * nt : ℕ) : α)) ops.pi 0)
        rr 8).vertices ∧
    (generate_dna ops ns r th rs nt hh gap rr).normals =
      (build_strand ops (ns * nt) rs (2 * ops.pi * (nt : α) / ((ns * nt : ℕ) : α)) r th hh
        0).1.normals ++
      (build_strand ops (ns * nt) rs (2 * ops.pi * (nt : α) / ((ns * nt : ℕ) : α)) r th hh
        ops.pi).1.normals ++
      (generate_small_cylinder ops
        (strandCenter ops r hh (2 * ops.pi * (nt : α) / ((ns * nt : ℕ) : α)) 0 0)
        (strandCenter ops r hh (2 * ops.pi * (nt : α) / ((ns * nt : ℕ) : α)) ops.pi 0)
        rr 8).normals ∧
    (generate_dna ops ns r th rs nt hh gap rr).indices =
      (build_strand ops (ns * nt) rs (2 * ops.pi * (nt : α) / ((ns * nt : ℕ) : α)) r th hh
        0).1.indices ++
      (build_strand ops (ns * nt) rs (2 * ops.pi * (nt : α) / ((ns * nt : ℕ) : α)) r th hh
        ops.pi).1.indices.map
        (· + (build_strand ops (ns * nt) rs (2 * ops.pi * (nt : α) / ((ns * nt : ℕ) : α)) r th hh
          0).1.vertices.length) ++
      (generate_small_cylinder ops
        (strandCenter ops r hh (2 * ops.pi * (nt : α) / ((ns * nt : ℕ) : α)) 0 0)
        (strandCenter ops r hh (2 * ops.pi * (nt : α) / ((ns * nt : ℕ) : α)) ops.pi 0)
        rr 8).indices.map
        (· + ((build_strand ops (ns * nt) rs (2 * ops.pi * (nt : α) / ((ns * nt : ℕ) : α)) r th hh
            0).1.vertices.length +
          (build_strand ops (ns * nt) rs (2 * ops.pi * (nt : α) / ((ns * nt : ℕ) : α)) r th hh
            ops.pi).1.vertices.length)) := by
  have hrange : pyRangeStep (ns * nt + 1) gap = [0] :=
    pyRangeStep_singleton _ _ (by omega) (by omega)
  have hgd : ∀ φ : α,
      (build_strand ops (ns * nt) rs (2 * ops.pi * (nt : α) / ((ns * nt : ℕ) : α)) r th hh
        φ).2.getD 0 0 =
        strandCenter ops r hh (2 * ops.pi * (nt : α) / ((ns * nt : ℕ) : α)) φ 0 := by
    intro φ
    rw [build_strand_centers]
    exact getD_map_range _ _ _ _ (by omega)
  refine ⟨hrange, ?_, ?_, ?_⟩
  · rw [generate_dna_vertices, hrange]
    simp only [List.map_cons, List.map_nil, List.flatMap_cons, List.flatMap_nil,
      List.append_nil, hgd]
  · rw [generate_dna_normals, hrange]
    simp only [List.map_cons, List.map_nil, List.flatMap_cons, List.flatMap_nil,
      List.append_nil, hgd]
  · rw [generate_dna_indices, hrange]
    simp only [List.map_cons, List.map_nil, offsetRungs, List.flatMap_cons, List.flatMap_nil,
      List.append_nil, hgd]

/-! ## The claims -/

/-- C1 (code bug): the combined index invariant fails.  `generate_small_cylinder`
appends its ring vertices interleaved (`v0, v1` per side, lines 69-70) while its
index loop assumes ring 1 starts at offset `sides` in a block layout (lines
57-58, 78-86), so a rung sub-mesh of `2*sides = 16` vertices emits local
indices up to `3*sides - 2 = 22`.  At `num_segments = 2, num_turns = 1,
ring_sides = 3, rung_gap = 5` (one non-degenerate rung) the combined mesh has
34 vertices but contains the index 40; the triangle-count divisibility
(`length % 3 = 0`) does hold. -/
theorem claim_C1_index_out_of_range :
    (generate_dna opsQ 2 (1/2) (3/100) 3 1 (1/10) 5 (1/50)).vertices.length = 34 ∧
    40 ∈ (generate_dna opsQ 2 (1/2) (3/100) 3 1 (1/10) 5 (1/50)).indices ∧
    (generate_dna opsQ 2 (1/2) (3/100) 3 1 (1/10) 5 (1/50)).indices.length % 3 = 0 ∧
    ¬ ∀ i ∈ (generate_dna opsQ 2 (1/2) (3/100) 3 1 (1/10) 5 (1/50)).indices,
        i < (generate_dna opsQ 2 (1/2) (3/100) 3 1 (1/10) 5 (1/50)).vertices.length := by
  obtain ⟨-, hv, -, hi⟩ :=
    single_rung_decomposition opsQ 2 (1/2) (3/100) 3 1 (1/10) 5 (1/50) (by norm_num)
  have hd : ¬ npnorm opsQ
      (strandCenter opsQ (1/2) (1/10) (2 * opsQ.pi * ((1 : ℕ) : ℚ) / ((2 * 1 : ℕ) : ℚ))
        opsQ.pi 0 -
       strandCenter opsQ (1/2) (1/10) (2 * opsQ.pi * ((1 : ℕ) : ℚ) / ((2 * 1 : ℕ) : ℚ))
        0 0) < 1 / 10 ^ 8 := by with_unfolding_all decide
  have hlen : (generate_dna opsQ 2 (1/2) (3/100) 3 1 (1/10) 5 (1/50)).vertices.length = 34 := by
    rw [hv, List.length_append, List.length_append, build_strand_vertices_length,
      build_strand_vertices_length, (generate_small_cylinder_lengths _ _ _ _ _ hd).1]
  have hcyl : (generate_small_cylinder opsQ
      (strandCenter opsQ (1/2) (1/10) (2 * opsQ.pi * ((1 : ℕ) : ℚ) / ((2 * 1 : ℕ) : ℚ)) 0 0)
      (strandCenter opsQ (1/2) (1/10) (2 * opsQ.pi * ((1 : ℕ) : ℚ) / ((2 * 1 : ℕ) : ℚ))
        opsQ.pi 0)
      (1/50) 8).indices =
      (List.range 8).flatMap (fun i =>
        [0 + 2 * i, 0 + 2 * ((i + 1) % 8), 8 + 2 * i,
         0 + 2 * ((i + 1) % 8), 8 + 2 * ((i + 1) % 8), 8 + 2 * i]) := by
    simp only [generate_small_cylinder, if_neg hd]
  have hmem : 40 ∈ (generate_dna opsQ 2 (1/2) (3/100) 3 1 (1/10) 5 (1/50)).indices := by
    rw [hi]
    simp only [hcyl, build_strand_vertices_length]
    decide
  have hilen :
      (generate_dna opsQ 2 (1/2) (3/100) 3 1 (1/10) 5 (1/50)).indices.length = 120 := by
    rw [hi, List.length_append, List.length_append, List.length_map, List.length_map,
      build_strand_indices_length, build_strand_indices_length, hcyl]
    decide
  refine ⟨hlen, hmem, by rw [hilen], fun hall => ?_⟩
  have h40 := hall 40 hmem
  rw [hlen] at h40
  omega

/-- C2: for every parameter assignment, `build_strand` emits exactly
`(N+1)*S` vertices and `N*S*6` indices, and in particular `201*8 = 1608`
vertices and `200*8*6 = 9600` indices for `total = 200, ring_sides = 8`. -/
theorem claim_C2_strand_counts (ops : Ops α) (dθ r th hh φ : α) :
    (∀ total S : ℕ,
      (build_strand ops total S dθ r th hh φ).1.vertices.length = (total + 1) * S ∧
      (build_strand ops total S dθ r th hh φ).1.indices.length = total * S * 6) ∧
    (build_strand ops 200 8 dθ r th hh φ).1.vertices.length = 1608 ∧
    (build_strand ops 200 8 dθ r th hh φ).1.indices.length = 9600 := by
  refine ⟨fun total S => ⟨build_strand_vertices_length .., build_strand_indices_length ..⟩,
    ?_, ?_⟩
  · rw [build_strand_vertices_length]
  · rw [build_strand_indices_length]

/-- C3 counterexample: with `num_segments = num_turns = 1` and
`rung_gap = 5 > total_segments = 1` the rung loop `range(0, 2, 5)` still
yields sample 0, so one rung is generated (the strand endpoints are `2r`
apart, far above the epsilon) and the combined vertex array is strictly
larger than the two strand sub-meshes concatenated. -/
theorem claim_C3_counterexample :
    pyRangeStep (1 * 1 + 1) 5 ≠ [] ∧
    (generate_dna opsQ 1 (1/2) (3/100) 3 1 (1/10) 5 (1/50)).vertices ≠
      (build_strand opsQ 1 3 (2 * opsQ.pi * ((1 : ℕ) : ℚ) / ((1 * 1 : ℕ) : ℚ)) (1/2) (3/100)
        (1/10) 0).1.vertices ++
      (build_strand opsQ 1 3 (2 * opsQ.pi * ((1 : ℕ) : ℚ) / ((1 * 1 : ℕ) : ℚ)) (1/2) (3/100)
        (1/10) opsQ.pi).1.vertices := by
  refine ⟨by decide, fun heq => ?_⟩
  obtain ⟨-, hv, -, -⟩ :=
    single_rung_decomposition opsQ 1 (1/2) (3/100) 3 1 (1/10) 5 (1/50) (by norm_num)
  have hd : ¬ npnorm opsQ
      (strandCenter opsQ (1/2) (1/10) (2 * opsQ.pi * ((1 : ℕ) : ℚ) / ((1 * 1 : ℕ) : ℚ))
        opsQ.pi 0 -
       strandCenter opsQ (1/2) (1/10) (2 * opsQ.pi * ((1 : ℕ) : ℚ) / ((1 * 1 : ℕ) : ℚ))
        0 0) < 1 / 10 ^ 8 := by with_unfolding_all decide
  have hlen := congrArg List.length heq
  rw [hv] at hlen
  simp only [List.length_append, build_strand_vertices_length,
    (generate_small_cylinder_lengths _ _ _ _ _ hd).1] at hlen
  norm_num at hlen

/-- C3 (amended): with `rung_gap` larger than the total segment count, exactly
one rung is generated - at sample 0, where the two strands are `2r` apart -
and the combined arrays are the two strand sub-meshes concatenated followed by
that single rung, with strand 2's indices offset by strand 1's vertex count
and the rung's indices by the total strand vertex count. -/
theorem claim_C3_one_rung (ops : Ops α) (ns : ℕ) (r th : α) (rs nt : ℕ) (hh : α) (gap : ℕ)
    (rr : α) (hgap : ns * nt < gap) :
    pyRangeStep (ns * nt + 1) gap = [0] ∧
    (generate_dna ops ns r th rs nt hh gap rr).vertices =
      (build_strand ops (ns * nt) rs (2 * ops.pi * (nt : α) / ((ns * nt : ℕ) : α)) r th hh
        0).1.vertices ++
      (build_strand ops (ns * nt) rs (2 * ops.pi * (nt : α) / ((ns * nt : ℕ) : α)) r th hh
        ops.pi).1.vertices ++
      (generate_small_cylinder ops
        (strandCenter ops r hh (2 * ops.pi * (nt : α) / ((ns * nt : ℕ) : α)) 0 0)
        (strandCenter ops r hh (2 * ops.pi * (nt : α) / ((ns * nt : ℕ) : α)) ops.pi 0)
        rr 8).vertices ∧
    (generate_dna ops ns r th rs nt hh gap rr).normals =
      (build_strand ops (ns * nt) rs (2 * ops.pi * (nt : α) / ((ns * nt : ℕ) : α)) r th hh
        0).1.normals ++
      (build_strand ops (ns * nt) rs (2 * ops.pi * (nt : α) / ((ns * nt : ℕ) : α)) r th hh
        ops.pi).1.normals ++
      (generate_small_cylinder ops
        (strandCenter ops r hh (2 * ops.pi * (nt : α) / ((ns * nt : ℕ) : α)) 0 0)
        (strandCenter ops r hh (2 * ops.pi * (nt : α) / ((ns * nt : ℕ) : α)) ops.pi 0)
        rr 8).normals ∧
    (generate_dna ops ns r th rs nt hh gap rr).indices =
      (build_strand ops (ns * nt) rs (2 * ops.pi * (nt : α) / ((ns * nt : ℕ) : α)) r th hh
        0).1.indices ++
      (build_strand ops (ns * nt) rs (2 * ops.pi * (nt : α) / ((ns * nt : ℕ) : α)) r th hh
        ops.pi).1.indices.map
        (· + (build_strand ops (ns * nt) rs (2 * ops.pi * (nt : α) / ((ns * nt : ℕ) : α)) r th hh
          0).1.vertices.length) ++
      (generate_small_cylinder ops
        (strandCenter ops r hh (2 * ops.pi * (nt : α) / ((ns * nt : ℕ) : α)) 0 0)
        (strandCenter ops r hh (2 * ops.pi * (nt : α) / ((ns * nt : ℕ) : α)) ops.pi 0)
        rr 8).indices.map
        (· + ((build_strand ops (ns * nt) rs (2 * ops.pi * (nt : α) / ((ns * nt : ℕ) : α)) r th hh
            0).1.vertices.length +
          (build_strand ops (ns * nt) rs (2 * ops.pi * (nt : α) / ((ns * nt : ℕ) : α)) r th hh
            ops.pi).1.vertices.length)) :=
  single_rung_decomposition ops ns r th rs nt hh gap rr hgap

/-- C3 witness: at `num_segments = num_turns = 1, rung_gap = 3` the rung
sample list is exactly `[0]` — one rung, not zero. -/
theorem claim_C3_witness : pyRangeStep (1 * 1 + 1) 3 = [0] :=
  (claim_C3_one_rung opsQ 1 1 (3/100) 2 1 (1/10) 3 (1/50) (by norm_num)).1

/-- C5: when the two endpoints are closer than the `1e-8` epsilon the Joint
Builder returns empty vertex/normal/index arrays (so in particular nothing
non-finite is emitted — the degenerate rung contributes no values at all);
otherwise it emits the two offset rings: `2*sides` vertices and normals, the
vertices interleaved so that each even/odd pair is `p1 + offset, p2 + offset`
for the same offset (their difference is constantly `p1 - p2`). -/
theorem claim_C5_degeneracy (ops : Ops α) (p1 p2 : Vec3 α) (radius : α) (sides : ℕ) :
    (npnorm ops (p2 - p1) < 1 / 10 ^ 8 →
      generate_small_cylinder ops p1 p2 radius sides =
        { vertices := [], normals := [], indices := [] }) ∧
    (¬ npnorm ops (p2 - p1) < 1 / 10 ^ 8 →
      (generate_small_cylinder ops p1 p2 radius sides).vertices.length = 2 * sides ∧
      (generate_small_cylinder ops p1 p2 radius sides).normals.length = 2 * sides ∧
      ∀ i, i < sides →
        (generate_small_cylinder ops p1 p2 radius sides).vertices.getD (2 * i) 0 -
          (generate_small_cylinder ops p1 p2 radius sides).vertices.getD (2 * i + 1) 0 =
        p1 - p2) := by
  constructor
  · exact generate_small_cylinder_degenerate ops p1 p2 radius sides
  · intro hdeg
    refine ⟨(generate_small_cylinder_lengths ops p1 p2 radius sides hdeg).1,
            (generate_small_cylinder_lengths ops p1 p2 radius sides hdeg).2.1, ?_⟩
    intro i hi
    have hpair := flatMap_pairs_getD
      (fun k => p1 + radius • (ops.cos (2 * ops.pi * (k : α) / (sides : α)) •
          (buildFrame ops (p2 - p1)).2.1 +
        ops.sin (2 * ops.pi * (k : α) / (sides : α)) • (buildFrame ops (p2 - p1)).2.2))
      (fun k => p2 + radius • (ops.cos (2 * ops.pi * (k : α) / (sides : α)) •
          (buildFrame ops (p2 - p1)).2.1 +
        ops.sin (2 * ops.pi * (k : α) / (sides : α)) • (buildFrame ops (p2 - p1)).2.2))
      (0 : Vec3 α) sides i hi
    simp only [generate_small_cylinder, if_neg hdeg]
    simp only [hpair.1, hpair.2]
    exact add_sub_add_cancel_vec p1 p2 _

/-- C5 witness: coincident endpoints give the empty mesh; endpoints a
distance 2 apart give the full `2*6`-vertex double ring. -/
theorem claim_C5_witness :
    generate_small_cylinder opsQ ⟨1, 2, 3⟩ ⟨1, 2, 3⟩ (1/50) 8 =
      { vertices := [], normals := [], indices := [] } ∧
    (generate_small_cylinder opsQ 0 ⟨2, 0, 0⟩ (1/50) 6).vertices.length = 2 * 6 :=
  ⟨(claim_C5_degeneracy opsQ ⟨1, 2, 3⟩ ⟨1, 2, 3⟩ (1/50) 8).1 (by with_unfolding_all decide),
   ((claim_C5_degeneracy opsQ 0 ⟨2, 0, 0⟩ (1/50) 6).2 (by with_unfolding_all decide)).1⟩

/-- C6: `generate_dna` is deterministic — it is a pure function of its
parameters (the embedding is a plain function; the source reads no ambient
state besides its arguments and `np.pi`), so equal parameter tuples give
equal vertex/normal/index arrays. -/
theorem claim_C6_deterministic (ops : Ops α) (ns ns' : ℕ) (r r' th th' : α)
    (rs rs' nt nt' : ℕ) (hh hh' : α) (gap gap' : ℕ) (rr rr' : α)
    (heq : (ns, r, th, rs, nt, hh, gap, rr) = (ns', r', th', rs', nt', hh', gap', rr')) :
    generate_dna ops ns r th rs nt hh gap rr =
      generate_dna ops ns' r' th' rs' nt' hh' gap' rr' := by
  simp only [Prod.mk.injEq] at heq
  obtain ⟨rfl, rfl, rfl, rfl, rfl, rfl, rfl, rfl⟩ := heq
  rfl

/-- C6 witness: two invocations at the default-style parameters coincide. -/
theorem claim_C6_witness :
    generate_dna opsQ 2 (1/2) (3/100) 3 1 (1/10) 5 (1/50) =
      generate_dna opsQ 2 (1/2) (3/100) 3 1 (1/10) 5 (1/50) :=
  claim_C6_deterministic opsQ 2 2 (1/2) (1/2) (3/100) (3/100) 3 3 1 1 (1/10) (1/10)
    5 5 (1/50) (1/50) rfl

/-- C7: at every sample at which a frame is built, the frame construction
shared by `build_strand` (lines 136-145) and `generate_small_cylinder`
(lines 44-51) — here `buildFrame` over the exact real library functions —
produces an orthonormal, right-handed triple: T·N = T·B = N·B = 0, T, N, B
are unit vectors, and N × B = T (exact equalities, hence well within any
floating tolerance); the up-reference switch at `|T·up| > 0.99` keeps both
cross products non-degenerate.  The hypothesis `traw ≠ 0` states that the
raw tangent/axis difference fed to the construction is nonzero, which holds
at every sample of the floating-point execution: consecutive float samples
never coincide exactly (e.g. at `num_segments = 1, vertical_spacing = 0`
the float residue `sin(2π) ≈ -2.4e-16` keeps the difference nonzero, and it
normalizes to an exact frame); the exact-real model's zero-tangent points
are idealization artifacts, not reachable float states (their behavior is
the subject of C8). -/
theorem claim_C7_frame_orthonormal (traw : Vec3 ℝ) (h : traw ≠ 0) :
    dotv (buildFrame opsR traw).1 (buildFrame opsR traw).2.1 = 0 ∧
    dotv (buildFrame opsR traw).1 (buildFrame opsR traw).2.2 = 0 ∧
    dotv (buildFrame opsR traw).2.1 (buildFrame opsR traw).2.2 = 0 ∧
    npnorm opsR (buildFrame opsR traw).1 = 1 ∧
    npnorm opsR (buildFrame opsR traw).2.1 = 1 ∧
    npnorm opsR (buildFrame opsR traw).2.2 = 1 ∧
    crossv (buildFrame opsR traw).2.1 (buildFrame opsR traw).2.2 =
      (buildFrame opsR traw).1 := by
  have p1 : (buildFrame opsR traw).1 = Helix.normalize opsR traw := rfl
  have p2 : (buildFrame opsR traw).2.1 =
      Helix.normalize opsR (crossv (Helix.normalize opsR traw)
        (frameUp (Helix.normalize opsR traw))) := rfl
  have p3 : (buildFrame opsR traw).2.2 =
      Helix.normalize opsR (crossv (Helix.normalize opsR traw)
        (Helix.normalize opsR (crossv (Helix.normalize opsR traw)
          (frameUp (Helix.normalize opsR traw))))) := rfl
  rw [p1, p2, p3]
  set T := Helix.normalize opsR traw with hTdef
  have hT1 : dotv T T = 1 := dotv_normalize_self h
  have hw_ne : crossv T (frameUp T) ≠ 0 := crossv_frameUp_ne_zero hT1
  set N := Helix.normalize opsR (crossv T (frameUp T)) with hNdef
  have hN1 : dotv N N = 1 := dotv_normalize_self hw_ne
  have hTN : dotv T N = 0 := by
    rw [hNdef, Helix.normalize, dotv_smul_right, dotv_crossv_left, mul_zero]
  have hw2 : dotv (crossv T N) (crossv T N) = 1 := by
    rw [dotv_crossv_self, hT1, hN1, hTN]
    ring
  have hB : Helix.normalize opsR (crossv T N) = crossv T N := normalize_of_unit hw2
  rw [hB]
  refine ⟨hTN, dotv_crossv_left T N, dotv_crossv_right T N, npnorm_eq_one hT1,
    npnorm_eq_one hN1, npnorm_eq_one hw2, ?_⟩
  rw [crossv_crossv_cancel, hN1, dotv_comm N T, hTN]
  rcases T with ⟨a, b, c⟩
  rcases N with ⟨d, e, f⟩
  simp only [Vec3.smul_def, Vec3.sub_def, Vec3.mk.injEq]
  exact ⟨by ring, by ring, by ring⟩

/-- C7 witness: the frame at the nonzero raw tangent `(3, 0, 4)` is
orthonormal and right-handed. -/
theorem claim_C7_witness :
    dotv (buildFrame opsR ⟨3, 0, 4⟩).1 (buildFrame opsR ⟨3, 0, 4⟩).2.1 = 0 ∧
    dotv (buildFrame opsR ⟨3, 0, 4⟩).1 (buildFrame opsR ⟨3, 0, 4⟩).2.2 = 0 ∧
    dotv (buildFrame opsR ⟨3, 0, 4⟩).2.1 (buildFrame opsR ⟨3, 0, 4⟩).2.2 = 0 ∧
    npnorm opsR (buildFrame opsR ⟨3, 0, 4⟩).1 = 1 ∧
    npnorm opsR (buildFrame opsR ⟨3, 0, 4⟩).2.1 = 1 ∧
    npnorm opsR (buildFrame opsR ⟨3, 0, 4⟩).2.2 = 1 ∧
    crossv (buildFrame opsR ⟨3, 0, 4⟩).2.1 (buildFrame opsR ⟨3, 0, 4⟩).2.2 =
      (buildFrame opsR ⟨3, 0, 4⟩).1 :=
  claim_C7_frame_orthonormal ⟨3, 0, 4⟩ (by
    intro hc
    rw [Vec3.zero_def] at hc
    simp only [Vec3.mk.injEq] at hc
    norm_num at hc)

/-- C8 counterexample: at the documented-range parameters
`num_segments = 1, num_turns = 1, vertical_spacing = 0, helix_radius = 1/2`
consecutive centerline samples coincide (distance 0, below any epsilon), yet
the Frame Solver performs no substitution and no failure: it normalizes the
zero difference (`nan` in the float execution, the zero frame in this exact
model) and `build_strand` still emits its full `(1+1)*8` vertices. -/
theorem claim_C8_counterexample :
    npnorm opsR (strandCenter opsR (1/2) 0 (2 * Real.pi) 0 1 -
      strandCenter opsR (1/2) 0 (2 * Real.pi) 0 0) = 0 ∧
    ((0 : ℝ) < 1 / 10 ^ 8) ∧
    buildFrame opsR (strandTangent opsR (1/2) 0 (2 * Real.pi) 0 1 0) = (0, 0, 0) ∧
    (build_strand opsR 1 8 (2 * Real.pi) (1/2) (3/100) 0 0).1.vertices.length =
      (1 + 1) * 8 := by
  refine ⟨?_, by norm_num, ?_, build_strand_vertices_length ..⟩
  · rw [strandCenter_two_pi, Vec3.sub_self, npnorm_zero]
  · rw [strandTangent_zero_at_degenerate, buildFrame_zero]

/-- C8 (amended): the Frame Solver has no epsilon guard on the sample-to-
neighbour distance: it unconditionally normalizes the difference vector.
When that difference is zero the resulting frame is the zero triple (`nan`
in floating point) — not a substituted previous tangent — and ring
generation is not failed: `build_strand` still emits all `(N+1)*S`
vertices. -/
theorem claim_C8_no_guard (ops : Ops α) (r th hh dθ φ : α) (total S i : ℕ)
    (hz : strandTangent ops r hh dθ φ total i = 0) :
    buildFrame ops (strandTangent ops r hh dθ φ total i) = (0, 0, 0) ∧
    (build_strand ops total S dθ r th hh φ).1.vertices.length = (total + 1) * S :=
  ⟨by rw [hz, buildFrame_zero], build_strand_vertices_length ..⟩

/-- C8 witness: with `helix_radius = 0, vertical_spacing = 0` all samples
coincide; the tangent at sample 0 is zero, the frame collapses, and the
strand is still fully generated. -/
theorem claim_C8_witness :
    buildFrame opsQ (strandTangent opsQ 0 0 1 0 1 0) = (0, 0, 0) ∧
    (build_strand opsQ 1 3 1 0 (3/100) 0 0).1.vertices.length = (1 + 1) * 3 :=
  claim_C8_no_guard opsQ 0 (3/100) 0 1 0 1 3 0 (by with_unfolding_all decide)

/-- C9 counterexample: the documented domain says `num_turns` is a float > 0,
but passing the float `2.5` (or any float) makes `total_segments` a float and
the very first `range(total_segments + 1)` raises `TypeError` — generation
does not succeed and no buffer is produced. -/
theorem claim_C9_counterexample :
    generate_dna_py opsQ 40 (1/2) (3/100) 8 (.float (5/2)) (1/10) 5 (1/50) =
      .error "TypeError: float object cannot be interpreted as an integer" := rfl

/-- C9 (amended): `generate_dna` is total only on integer turn counts: for
every float `num_turns` — fractional or not — `total_segments` is a float
and the sample loop `range(total_segments + 1)` raises `TypeError` before
any geometry is produced.  (For integer `num_turns` generation is total;
see the C4 theorem.) -/
theorem claim_C9_float_turns_error (ops : Ops α) (ns : ℕ) (r th : α) (rs : ℕ) (q : ℚ)
    (hh : α) (gap : ℕ) (rr : α) :
    generate_dna_py ops ns r th rs (.float q) hh gap rr =
      .error "TypeError: float object cannot be interpreted as an integer" := rfl

/-- C10: `generate_dna` calls `generate_small_cylinder` with the hard-coded
`sides = 8`, so the rung geometry is independent of `ring_sides`: the rung
tail of the combined vertex array (after the `2*(N+1)*ring_sides` strand
vertices) is the same for any two `ring_sides` values, and every
non-degenerate rung contributes exactly `2*8 = 16` vertices and
`6*8 = 48` indices. -/
theorem claim_C10_hardcoded_rung_sides (ops : Ops α) (ns : ℕ) (r th : α) (nt : ℕ)
    (hh : α) (gap : ℕ) (rr : α) (rs rs' : ℕ) :
    (generate_dna ops ns r th rs nt hh gap rr).vertices.drop
        ((ns * nt + 1) * rs + (ns * nt + 1) * rs) =
      (generate_dna ops ns r th rs' nt hh gap rr).vertices.drop
        ((ns * nt + 1) * rs' + (ns * nt + 1) * rs') ∧
    (∀ p1 p2 : Vec3 α, ¬ npnorm ops (p2 - p1) < 1 / 10 ^ 8 →
      (generate_small_cylinder ops p1 p2 rr 8).vertices.length = 2 * 8 ∧
      (generate_small_cylinder ops p1 p2 rr 8).indices.length = 6 * 8) := by
  constructor
  · rw [generate_dna_vertices, generate_dna_vertices,
      List.drop_left' (by rw [List.length_append, build_strand_vertices_length,
        build_strand_vertices_length]),
      List.drop_left' (by rw [List.length_append, build_strand_vertices_length,
        build_strand_vertices_length])]
    simp only [build_strand_centers]
  · intro p1 p2 hdeg
    exact ⟨(generate_small_cylinder_lengths ops p1 p2 rr 8 hdeg).1,
           (generate_small_cylinder_lengths ops p1 p2 rr 8 hdeg).2.2⟩

/-- C10 witness: changing `ring_sides` from 3 to 5 leaves the rung tail of
the combined vertex array unchanged, and a concrete non-degenerate rung has
16 vertices and 48 indices. -/
theorem claim_C10_witness :
    (generate_dna opsQ 1 (1/2) (3/100) 3 1 (1/10) 5 (1/50)).vertices.drop
        ((1 * 1 + 1) * 3 + (1 * 1 + 1) * 3) =
      (generate_dna opsQ 1 (1/2) (3/100) 5 1 (1/10) 5 (1/50)).vertices.drop
        ((1 * 1 + 1) * 5 + (1 * 1 + 1) * 5) ∧
    ((generate_small_cylinder opsQ 0 ⟨2, 0, 0⟩ (1/50) 8).vertices.length = 2 * 8 ∧
     (generate_small_cylinder opsQ 0 ⟨2, 0, 0⟩ (1/50) 8).indices.length = 6 * 8) :=
  ⟨(claim_C10_hardcoded_rung_sides opsQ 1 (1/2) (3/100) 1 (1/10) 5 (1/50) 3 5).1,
   (claim_C10_hardcoded_rung_sides opsQ 1 (1/2) (3/100) 1 (1/10) 5 (1/50) 3 5).2
     0 ⟨2, 0, 0⟩ (by with_unfolding_all decide)⟩

end Helix
